import Mathlib

/-!
# SpringCA product list view

A shallow embedding of the catalogue view of
`shopping-cart/src/main/frontend/src/components/ProductList.js` and of the
`debounce` helper of `utils/helpers.js`, followed by the properties proved
about them.

JavaScript numbers that the view handles are page indices, counts and sizes;
they are embedded as `Int`, with `Option Int` where `NaN` can arise
(`parseInt`).
-/

namespace SpringCA

/-! ## Data model -/

/-- The `pagination` state object, in the shape of its `useState` initial
value; `size` is `none` when it holds `NaN`. -/
structure Pagination where
  currentPage : Int
  totalPages : Int
  totalElements : Int
  size : Option Int
  hasNext : Bool
  hasPrevious : Bool
deriving DecidableEq, Repr

/-! ## renderPagination -/

/-- The constant `maxVisiblePages` of `renderPagination`. -/
def maxVisiblePages : Int := 5

/-- The first page of the window:
`Math.max(0, pagination.currentPage - Math.floor(maxVisiblePages / 2))`. -/
def startPage (p : Pagination) : Int :=
  max 0 (p.currentPage - Int.fdiv maxVisiblePages 2)

/-- The last page of the window:
`Math.min(pagination.totalPages - 1, startPage + maxVisiblePages - 1)`. -/
def endPage (p : Pagination) : Int :=
  min (p.totalPages - 1) (startPage p + maxVisiblePages - 1)

/-- The pages of the window:
`Array.from({ length: endPage - startPage + 1 }, (_, i) => startPage + i)`;
a negative length gives the empty array. -/
def windowPages (p : Pagination) : List Int :=
  (List.range (endPage p - startPage p + 1).toNat).map (fun (i : Nat) => startPage p + (i : Int))

/-- The `<li>` elements of the pagination list. A button carries the argument
its `onClick` passes to `handlePageChange`. -/
inductive PageItem where
  | prevButton (disabled : Bool) (target : Int)
  | pageButton (page : Int) (active : Bool)
  | ellipsis
  | nextButton (disabled : Bool) (target : Int)
deriving DecidableEq, Repr

/-- The block `{startPage > 0 && (...)}`: the separate first-page button, then
an ellipsis when `startPage > 1`. -/
def leadingBlock (p : Pagination) : List PageItem :=
  if startPage p > 0 then
    PageItem.pageButton 0 false :: (if startPage p > 1 then [PageItem.ellipsis] else [])
  else []

/-- The window's `<li>` elements; the one of the current page has class
`active`. -/
def windowBlock (p : Pagination) : List PageItem :=
  (windowPages p).map (fun page => PageItem.pageButton page (decide (page = p.currentPage)))

/-- The block `{endPage < pagination.totalPages - 1 && (...)}`: an ellipsis
when `endPage < totalPages - 2`, then the separate last-page button. -/
def trailingBlock (p : Pagination) : List PageItem :=
  if endPage p < p.totalPages - 1 then
    (if endPage p < p.totalPages - 2 then [PageItem.ellipsis] else [])
      ++ [PageItem.pageButton (p.totalPages - 1) false]
  else []

/-- The function `renderPagination`: `none` is the `null` it returns when
`totalPages <= 1`, otherwise the children of the `<ul>` in order. -/
def renderPagination (p : Pagination) : Option (List PageItem) :=
  if p.totalPages ≤ 1 then none
  else some (
    [PageItem.prevButton (!p.hasPrevious) (p.currentPage - 1)]
      ++ leadingBlock p ++ windowBlock p ++ trailingBlock p
      ++ [PageItem.nextButton (!p.hasNext) (p.currentPage + 1)])

/-- The page index of a numbered page button (not previous/next). -/
def PageItem.pageIndex : PageItem → Option Int
  | PageItem.pageButton page _ => some page
  | _ => none

/-- Whether an item is a page link with class `active`. -/
def PageItem.isActive : PageItem → Bool
  | PageItem.pageButton _ active => active
  | _ => false

/-- The indices of the numbered page buttons of a rendered list, in order. -/
def pageIndices (items : List PageItem) : List Int :=
  items.filterMap PageItem.pageIndex

/-- The number of page links marked active in a rendered list. -/
def activeCount (items : List PageItem) : Nat :=
  items.countP PageItem.isActive

/-! ## JavaScript values and objects -/

/-- The JavaScript values that occur in the filter and request-parameter
objects. -/
inductive JSVal where
  | undefined
  | str (s : String)
  | num (n : Int)
  | nan
deriving DecidableEq, Repr

/-- A plain object: its properties in insertion order. -/
abbrev Obj := List (String × JSVal)

/-- Property read `o[key]`; an absent property reads as `undefined`. -/
def objGet (o : Obj) (key : String) : JSVal :=
  match o.find? (fun kv => decide (kv.1 = key)) with
  | some kv => kv.2
  | none => JSVal.undefined

/-- The object `{ ...o, [key]: value }`: an existing property keeps its place
and takes the new value, a new property is added last. -/
def objSet : Obj → String → JSVal → Obj
  | [], key, value => [(key, value)]
  | (k, v) :: rest, key, value =>
    if k = key then (k, value) :: rest else (k, v) :: objSet rest key value

/-- A number that is an integer or `NaN` (`none`), as a value. -/
def numVal : Option Int → JSVal
  | some n => JSVal.num n
  | none => JSVal.nan

/-- The expression `message || fallback` on an optional string: `undefined`
and the empty string are falsy. -/
def orElse (message : Option String) (fallback : String) : String :=
  match message with
  | some m => if m = "" then fallback else m
  | none => fallback

/-! ## parseInt -/

/-- White space and line terminators that `parseInt` skips in front. -/
def isJSWhitespace (c : Char) : Bool :=
  let n := c.toNat
  n = 9 || n = 10 || n = 11 || n = 12 || n = 13 || n = 32 || n = 160 || n = 0x1680
    || (0x2000 ≤ n && n ≤ 0x200A) || n = 0x2028 || n = 0x2029 || n = 0x202F
    || n = 0x205F || n = 0x3000 || n = 0xFEFF

/-- The value of a character as a digit of the given radix, if it is one. -/
def digitValue (radix : Nat) (c : Char) : Option Nat :=
  let n := c.toNat
  let v : Option Nat :=
    if 48 ≤ n ∧ n ≤ 57 then some (n - 48)
    else if 97 ≤ n ∧ n ≤ 122 then some (n - 87)
    else if 65 ≤ n ∧ n ≤ 90 then some (n - 55)
    else none
  match v with
  | some d => if d < radix then some d else none
  | none => none

/-- The longest prefix of digits of the given radix, as digit values. -/
def takeDigits (radix : Nat) : List Char → List Nat
  | [] => []
  | c :: cs =>
    match digitValue radix c with
    | some d => d :: takeDigits radix cs
    | none => []

/-- The built-in `parseInt(string)` with no radix argument: skip leading white
space, read a sign, read a `0x`/`0X` prefix (radix 16, else 10), then the
longest run of digits; `none` is `NaN`. The result is kept exact (the
rounding of integers beyond 2^53 to a double is not modelled, nor the sign of
zero). -/
def parseInt (s : String) : Option Int :=
  let cs := s.toList.dropWhile isJSWhitespace
  let signed : Int × List Char :=
    match cs with
    | '-' :: rest => (-1, rest)
    | '+' :: rest => (1, rest)
    | _ => (1, cs)
  let based : Nat × List Char :=
    match signed.2 with
    | '0' :: 'x' :: rest => (16, rest)
    | '0' :: 'X' :: rest => (16, rest)
    | _ => (10, signed.2)
  let digits := takeDigits based.1 based.2
  if digits = [] then none
  else some (signed.1 * ((digits.foldl (fun acc d => acc * based.1 + d) 0 : Nat) : Int))

/-! ## View state -/

/-- A product as the backend delivers it. -/
structure Product where
  id : Int
  name : String
  description : String
  price : Rat
  rating : Rat
  reviewCount : Int
  stock : Int
  category : String
  imageUrl : String
deriving DecidableEq, Repr

/-- One call `showToast(message, type)`. -/
structure Toast where
  message : String
  type : String
deriving DecidableEq, Repr

/-- The state of the `ProductList` component (its `useState` cells), together
with a record of its outward calls: the toasts shown, the `getProducts`
requests sent and the `addToCart` requests sent. -/
structure ViewState where
  products : List Product
  loading : Bool
  error : Option String
  pagination : Pagination
  filters : Obj
  categories : List String
  brands : List String
  cartCount : Int
  toasts : List Toast
  requests : List Obj
  cartRequests : List (Int × Int)
deriving DecidableEq, Repr

/-- The initial values of the `useState` cells. -/
def initialState : ViewState where
  products := []
  loading := true
  error := none
  pagination := ⟨0, 0, 0, some 12, false, false⟩
  filters := [("query", JSVal.str ""), ("category", JSVal.str ""), ("brand", JSVal.str ""),
    ("sortBy", JSVal.str "name"), ("sortDir", JSVal.str "asc")]
  categories := []
  brands := []
  cartCount := 0
  toasts := []
  requests := []
  cartRequests := []

/-- The body of a `getProducts` response. -/
structure ProductsResponse where
  success : Bool
  data : List Product
  pagination : Pagination
  message : Option String
deriving DecidableEq, Repr

/-- The `data` of an `addToCart` response. -/
structure CartData where
  totalQuantity : Int
deriving DecidableEq, Repr

/-- The body of an `addToCart` response; `data` may be missing. -/
structure CartResponse where
  success : Bool
  data : Option CartData
  message : Option String
deriving DecidableEq, Repr

/-- How an awaited request settles: fulfilled with the response body, or
rejected with the `Error` the response interceptor of `api.js` builds. -/
inductive Settled (ρ : Type) where
  | fulfilled (response : ρ)
  | rejected (message : String)
deriving DecidableEq, Repr

/-- The helper `showToast`, as the record of the call. -/
def showToast (s : ViewState) (message type : String) : ViewState :=
  { s with toasts := s.toasts ++ [⟨message, type⟩] }

/-! ## loadProducts -/

/-- The object `params` of `loadProducts`:
`{ ...filters, page, size: pagination.size }`. -/
def loadProductsParams (s : ViewState) (page : Int) : Obj :=
  objSet (objSet s.filters "page" (JSVal.num page)) "size" (numVal s.pagination.size)

/-- `loadProducts(page)` up to its `await`: `setLoading(true)`,
`setError(null)`, and the request `productApi.getProducts(params)` is sent. -/
def loadProducts (s : ViewState) (page : Int) : ViewState :=
  { s with
    loading := true
    error := none
    requests := s.requests ++ [loadProductsParams s page] }

/-- The `catch` and `finally` blocks of `loadProducts` for an error with the
given message. -/
def loadProductsCatch (s : ViewState) (message : String) : ViewState :=
  { showToast { s with error := some message } message "error" with loading := false }

/-- `loadProducts` from its `await` on, run on the state current when the
request settles. -/
def loadProductsSettled (s : ViewState) (outcome : Settled ProductsResponse) : ViewState :=
  match outcome with
  | Settled.fulfilled response =>
    if response.success then
      { s with products := response.data, pagination := response.pagination, loading := false }
    else
      loadProductsCatch s (orElse response.message "加载商品失败")
  | Settled.rejected message => loadProductsCatch s message

/-- The effect `useEffect(() => { loadProducts(0) }, [loadProducts])`, which
React runs after a render in which `loadProducts` was rebuilt, that is after
`filters` was replaced or `pagination.size` changed. -/
def reloadEffect (s : ViewState) : ViewState :=
  loadProducts s 0

/-- The events of the fetch life cycle: a call of `loadProducts`, and the
settling of one of the requests in flight. -/
inductive FetchEvent where
  | issue (page : Int)
  | settle (outcome : Settled ProductsResponse)
deriving DecidableEq, Repr

/-- Whether an event is the settling of a fetch that takes the `catch`
path. -/
def FetchEvent.isFailure : FetchEvent → Bool
  | FetchEvent.settle (Settled.fulfilled response) => !response.success
  | FetchEvent.settle (Settled.rejected _) => true
  | FetchEvent.issue _ => false

/-- One event of the fetch life cycle. -/
def fetchStep (s : ViewState) : FetchEvent → ViewState
  | FetchEvent.issue page => loadProducts s page
  | FetchEvent.settle outcome => loadProductsSettled s outcome

/-- A sequence of fetch events, handled one after the other. -/
def runFetchEvents (s : ViewState) (events : List FetchEvent) : ViewState :=
  events.foldl fetchStep s

/-! ## Handlers -/

/-- The handler `handleFilterChange`:
`setFilters(prev => ({ ...prev, [key]: value }))`. -/
def handleFilterChange (s : ViewState) (key : String) (value : JSVal) : ViewState :=
  { s with filters := objSet s.filters key value }

/-- The handler `handlePageChange`. -/
def handlePageChange (s : ViewState) (newPage : Int) : ViewState :=
  if newPage ≥ 0 ∧ newPage < s.pagination.totalPages then loadProducts s newPage else s

/-- The `onChange` of the page-size select:
`setPagination(prev => ({ ...prev, size: parseInt(e.target.value) }))`. -/
def pageSizeOnChange (s : ViewState) (value : String) : ViewState :=
  { s with pagination := { s.pagination with size := parseInt value } }

/-- The message of the `TypeError` raised by reading `totalQuantity` of an
absent `data` (the text is the engine's; V8's is given). -/
def missingDataMessage : String :=
  "Cannot read properties of undefined (reading 'totalQuantity')"

/-- `handleAddToCart(productId, productName)` up to its `await`: the request
`cartApi.addToCart(productId, 1)` is sent. -/
def handleAddToCart (s : ViewState) (productId : Int) : ViewState :=
  { s with cartRequests := s.cartRequests ++ [(productId, 1)] }

/-- `handleAddToCart` from its `await` on. -/
def handleAddToCartSettled (s : ViewState) (productName : String)
    (outcome : Settled CartResponse) : ViewState :=
  match outcome with
  | Settled.fulfilled response =>
    if response.success then
      let s1 := showToast s (productName ++ " 已添加到购物车") "success"
      match response.data with
      | some data => { s1 with cartCount := data.totalQuantity }
      | none => showToast s1 missingDataMessage "error"
    else
      showToast s (orElse response.message "添加失败") "error"
  | Settled.rejected message => showToast s message "error"

/-! ## debounce

Timers are modelled on a virtual clock that counts milliseconds. The event
loop holds the timers registered by `setTimeout` and not yet run or cleared,
and the variable `timeout` of every closure that `debounce` has created. -/

/-- A pending timer: its id, the time it is due, the debounced function whose
`later` it runs (by the slot of that function's closure) and the arguments of
the call that registered it. -/
structure Timer (α : Type) where
  id : Nat
  due : Nat
  owner : Nat
  args : α
deriving DecidableEq, Repr

/-- One call `func(...args)` made by a `later`, with the time of the call. -/
structure Invocation (α : Type) where
  owner : Nat
  args : α
  time : Nat
deriving DecidableEq, Repr

/-- The event loop: the clock, the id the next `setTimeout` returns, the
pending timers in the order they were registered, the number of closures
created by `debounce`, the variable `timeout` of each closure (`none` is
`undefined`), and the record of the calls of the wrapped functions. -/
structure EventLoop (α : Type) where
  now : Nat
  nextId : Nat
  timers : List (Timer α)
  nextSlot : Nat
  timeout : Nat → Option Nat
  invoked : List (Invocation α)

/-- A function returned by `debounce(func, wait)`: the slot of its closure,
which holds its own `timeout` variable, and its `wait`. -/
structure Debounced where
  slot : Nat
  wait : Nat
deriving DecidableEq, Repr

/-- The event loop at start: no timer, no closure. -/
def EventLoop.initial (α : Type) : EventLoop α where
  now := 0
  nextId := 1
  timers := []
  nextSlot := 0
  timeout := fun _ => none
  invoked := []

/-- The call `debounce(func, wait)`: a new closure with its own `let timeout`,
still `undefined`. -/
def debounce {α : Type} (wait : Nat) (w : EventLoop α) : Debounced × EventLoop α :=
  (⟨w.nextSlot, wait⟩,
    { w with
      nextSlot := w.nextSlot + 1
      timeout := Function.update w.timeout w.nextSlot none })

/-- The built-in `clearTimeout(id)`: the timer of that id, if pending, is
dropped; `clearTimeout(undefined)` does nothing. -/
def clearTimeout {α : Type} (id : Option Nat) (w : EventLoop α) : EventLoop α :=
  match id with
  | none => w
  | some i => { w with timers := w.timers.filter (fun t => decide (t.id ≠ i)) }

/-- The returned function `executedFunction(...args)`:
`clearTimeout(timeout); timeout = setTimeout(later, wait)`. -/
def executedFunction {α : Type} (d : Debounced) (args : α) (w : EventLoop α) : EventLoop α :=
  let w1 := clearTimeout (w.timeout d.slot) w
  { w1 with
    nextId := w1.nextId + 1
    timers := w1.timers ++ [⟨w1.nextId, w1.now + d.wait, d.slot, args⟩]
    timeout := Function.update w1.timeout d.slot (some w1.nextId) }

/-- The callback `later` of a timer: `clearTimeout(timeout); func(...args)`. -/
def later {α : Type} (t : Timer α) (w : EventLoop α) : EventLoop α :=
  let w1 := clearTimeout (w.timeout t.owner) w
  { w1 with invoked := w1.invoked ++ [⟨t.owner, t.args, w1.now⟩] }

/-- The pending timer due first; of two due at the same time, the one
registered first. -/
def earliest {α : Type} : List (Timer α) → Option (Timer α)
  | [] => none
  | t :: ts =>
    match earliest ts with
    | none => some t
    | some u => if u.due < t.due then some u else some t

/-- The timer the event loop runs next when the clock may go up to
`target`. -/
def nextDue {α : Type} (target : Nat) (timers : List (Timer α)) : Option (Timer α) :=
  match earliest timers with
  | some t => if t.due ≤ target then some t else none
  | none => none

/-- The event loop runs the timers due up to `target`, one per turn: the timer
leaves the pending list, the clock moves to its due time, its callback runs.
A callback registers no timer, so `fuel` equal to the number of pending timers
is enough. -/
def runTimers {α : Type} (target : Nat) : Nat → EventLoop α → EventLoop α
  | 0, w => w
  | fuel + 1, w =>
    match nextDue target w.timers with
    | none => w
    | some t =>
      runTimers target fuel
        (later t { w with
          timers := w.timers.filter (fun u => decide (u.id ≠ t.id))
          now := max w.now t.due })

/-- Time passes: `dt` milliseconds go by with no call from outside. -/
def advance {α : Type} (dt : Nat) (w : EventLoop α) : EventLoop α :=
  { runTimers (w.now + dt) w.timers.length w with now := w.now + dt }

/-- A series of calls of one debounced function; each call is given with the
time that passes before it. -/
def callSeries {α : Type} (d : Debounced) : List (Nat × α) → EventLoop α → EventLoop α
  | [], w => w
  | (gap, args) :: rest, w => callSeries d rest (executedFunction d args (advance gap w))

/-- What can happen on the event loop. -/
inductive LoopEvent (α : Type) where
  | create (wait : Nat)
  | call (d : Debounced) (args : α)
  | pass (dt : Nat)

/-- One event on the event loop. -/
def loopStep {α : Type} (w : EventLoop α) : LoopEvent α → EventLoop α
  | LoopEvent.create wait => (debounce wait w).2
  | LoopEvent.call d args => executedFunction d args w
  | LoopEvent.pass dt => advance dt w

/-- A sequence of events on the event loop. -/
def runLoop {α : Type} (w : EventLoop α) (events : List (LoopEvent α)) : EventLoop α :=
  events.foldl loopStep w

/-- The pending timers of one debounced function. -/
def pendingOf {α : Type} (slot : Nat) (w : EventLoop α) : List (Timer α) :=
  w.timers.filter (fun t => decide (t.owner = slot))

/-- The recorded calls of the function wrapped by one debounced function. -/
def invokedOf {α : Type} (slot : Nat) (w : EventLoop α) : List (Invocation α) :=
  w.invoked.filter (fun c => decide (c.owner = slot))

/-- The invariant of the event loop: timer ids and the ids held in `timeout`
variables are ids already handed out, and the id held in a closure's `timeout`
can only be the id of a timer of that closure. -/
structure EventLoop.WellFormed {α : Type} (w : EventLoop α) : Prop where
  ids_lt : ∀ t ∈ w.timers, t.id < w.nextId
  timeout_lt : ∀ slot id, w.timeout slot = some id → id < w.nextId
  timeout_owner : ∀ slot id, w.timeout slot = some id →
    ∀ t ∈ w.timers, t.id = id → t.owner = slot

/-- The arguments of the last call of a series that follows a call with
arguments `args`. -/
def lastArgs {α : Type} : α → List (Nat × α) → α
  | args, [] => args
  | _, (_, next) :: rest => lastArgs next rest

/-- The state in which the debounced function `d` has exactly one timer
pending, and no other timer is: the one its last call, with arguments `args`,
registered at the present time. -/
def Armed {α : Type} (d : Debounced) (args : α) (w : EventLoop α) : Prop :=
  ∃ id, w.timers = [⟨id, w.now + d.wait, d.slot, args⟩] ∧ w.timeout d.slot = some id

/-! ## generateStars

Ratings are taken as exact rationals. -/

/-- The three icons `generateStars` appends to its result. -/
inductive StarIcon where
  | full
  | half
  | empty
deriving DecidableEq, Repr

/-- The HTML of an icon, as appended to `stars`. -/
def StarIcon.html : StarIcon → String
  | StarIcon.full => "<i class=\"bi bi-star-fill text-warning\"></i>"
  | StarIcon.half => "<i class=\"bi bi-star-half text-warning\"></i>"
  | StarIcon.empty => "<i class=\"bi bi-star text-muted\"></i>"

/-- The expression `rating % 1`: the remainder has the sign of `rating`, the
quotient being rounded towards zero. -/
def remainderOne (rating : Rat) : Rat :=
  rating - ((if 0 ≤ rating then Int.floor rating else Int.ceil rating : Int) : Rat)

/-- The constant `fullStars = Math.floor(rating)`. -/
def fullStars (rating : Rat) : Int :=
  Int.floor rating

/-- The constant `hasHalfStar = rating % 1 >= 0.5`. -/
def hasHalfStar (rating : Rat) : Bool :=
  decide (remainderOne rating ≥ 1 / 2)

/-- The constant `emptyStars = maxStars - fullStars - (hasHalfStar ? 1 : 0)`. -/
def emptyStars (rating : Rat) (maxStars : Int) : Int :=
  maxStars - fullStars rating - (if hasHalfStar rating then 1 else 0)

/-- The icons appended to `stars`, in order: the loop `i < fullStars`, the
`if (hasHalfStar)`, the loop `i < emptyStars`. A loop whose bound is not
positive appends nothing. -/
def starIcons (rating : Rat) (maxStars : Int) : List StarIcon :=
  List.replicate (fullStars rating).toNat StarIcon.full
    ++ (if hasHalfStar rating then [StarIcon.half] else [])
    ++ List.replicate (emptyStars rating maxStars).toNat StarIcon.empty

/-- The function `generateStars(rating, maxStars = 5)`: the string `stars`. -/
def generateStars (rating : Rat) (maxStars : Int := 5) : String :=
  String.join ((starIcons rating maxStars).map StarIcon.html)

/-! ## Properties of the pagination window -/

theorem fdiv_maxVisiblePages : Int.fdiv maxVisiblePages 2 = 2 := by decide

theorem startPage_eq (p : Pagination) : startPage p = max 0 (p.currentPage - 2) := by
  simp [startPage, fdiv_maxVisiblePages]

theorem endPage_eq (p : Pagination) :
    endPage p = min (p.totalPages - 1) (startPage p + 4) := by
  simp only [endPage, maxVisiblePages]
  congr 1
  omega

theorem windowPages_length (p : Pagination) :
    (windowPages p).length = (endPage p - startPage p + 1).toNat := by
  simp [windowPages]

theorem mem_windowPages (p : Pagination) (k : Int) :
    k ∈ windowPages p ↔ startPage p ≤ k ∧ k ≤ endPage p := by
  simp only [windowPages, List.mem_map, List.mem_range]
  constructor
  · rintro ⟨i, hi, rfl⟩
    omega
  · rintro ⟨h1, h2⟩
    refine ⟨(k - startPage p).toNat, ?_, ?_⟩ <;> omega

theorem windowPages_pairwise (p : Pagination) :
    (windowPages p).Pairwise (· < ·) := by
  simp only [windowPages, List.pairwise_map]
  refine (List.pairwise_lt_range _).imp ?_
  intro a b hab
  omega

theorem windowPages_count (p : Pagination) (k : Int) :
    (windowPages p).count k = if startPage p ≤ k ∧ k ≤ endPage p then 1 else 0 := by
  have hnd : (windowPages p).Nodup := (windowPages_pairwise p).imp (fun h => ne_of_lt h)
  split_ifs with h
  · exact List.count_eq_one_of_mem hnd ((mem_windowPages p k).2 h)
  · exact List.count_eq_zero_of_not_mem (fun hm => h ((mem_windowPages p k).1 hm))

theorem pageIndices_append (a b : List PageItem) :
    pageIndices (a ++ b) = pageIndices a ++ pageIndices b := by
  simp [pageIndices, List.filterMap_append]

theorem pageIndices_leadingBlock (p : Pagination) :
    pageIndices (leadingBlock p) = if startPage p > 0 then [0] else [] := by
  unfold leadingBlock pageIndices
  split_ifs <;> simp [PageItem.pageIndex]

theorem pageIndices_windowBlock (p : Pagination) :
    pageIndices (windowBlock p) = windowPages p := by
  unfold windowBlock pageIndices
  rw [List.filterMap_map]
  have : (PageItem.pageIndex ∘ fun page => PageItem.pageButton page (decide (page = p.currentPage)))
      = some := by
    funext page
    rfl
  rw [this, List.filterMap_some]

theorem pageIndices_trailingBlock (p : Pagination) :
    pageIndices (trailingBlock p)
      = if endPage p < p.totalPages - 1 then [p.totalPages - 1] else [] := by
  unfold trailingBlock pageIndices
  split_ifs <;> simp [PageItem.pageIndex]

theorem renderPagination_eq (p : Pagination) (ht : 1 < p.totalPages) :
    renderPagination p = some (
      [PageItem.prevButton (!p.hasPrevious) (p.currentPage - 1)]
        ++ leadingBlock p ++ windowBlock p ++ trailingBlock p
        ++ [PageItem.nextButton (!p.hasNext) (p.currentPage + 1)]) := by
  simp only [renderPagination, if_neg (not_le.2 ht)]

theorem pageIndices_render (p : Pagination) (items : List PageItem)
    (h : renderPagination p = some items) :
    pageIndices items
      = (if startPage p > 0 then [0] else []) ++ windowPages p
          ++ (if endPage p < p.totalPages - 1 then [p.totalPages - 1] else []) := by
  unfold renderPagination at h
  split_ifs at h
  simp only [Option.some.injEq] at h
  subst h
  simp only [pageIndices_append, pageIndices_leadingBlock, pageIndices_windowBlock,
    pageIndices_trailingBlock]
  simp [pageIndices, PageItem.pageIndex]

theorem count_singleton_int (a b : Int) : List.count a [b] = if b = a then 1 else 0 := by
  rw [List.count_singleton]
  by_cases h : b = a <;> simp [h]

theorem activeCount_windowBlock (p : Pagination) :
    activeCount (windowBlock p) = (windowPages p).count p.currentPage := by
  unfold activeCount windowBlock
  rw [List.countP_map, List.count]
  congr 1

theorem activeCount_leadingBlock (p : Pagination) : activeCount (leadingBlock p) = 0 := by
  unfold activeCount leadingBlock
  split_ifs <;> simp [PageItem.isActive]

theorem activeCount_trailingBlock (p : Pagination) : activeCount (trailingBlock p) = 0 := by
  unfold activeCount trailingBlock
  split_ifs <;> simp [PageItem.isActive]

/-! ### C1 -/

/-- C1 fails as stated: on the last of ten pages the window is pages 7, 8, 9,
three direct links and not `min(5, 10) = 5`. -/
theorem window_size_counterexample :
    windowPages ⟨9, 10, 120, some 12, false, true⟩ = [7, 8, 9]
      ∧ ((windowPages ⟨9, 10, 120, some 12, false, true⟩).length : Int)
          ≠ min 5 (Pagination.totalPages ⟨9, 10, 120, some 12, false, true⟩) := by
  decide

/-- C1 (amended): for `totalPages > 1` and a current page in range, the window
of direct links has exactly `min(5, totalPages - startPage)` elements, which is
never more than `min(5, totalPages)` and equals it exactly when
`currentPage <= 2` or `currentPage + 3 <= totalPages`. -/
theorem window_size (p : Pagination) (ht : 1 < p.totalPages)
    (h0 : 0 ≤ p.currentPage) (h1 : p.currentPage < p.totalPages) :
    ((windowPages p).length : Int) = min 5 (p.totalPages - startPage p)
      ∧ ((windowPages p).length : Int) ≤ min 5 p.totalPages
      ∧ (((windowPages p).length : Int) = min 5 p.totalPages
          ↔ (p.currentPage ≤ 2 ∨ p.currentPage + 3 ≤ p.totalPages)) := by
  rw [windowPages_length]
  have hs := startPage_eq p
  have he := endPage_eq p
  omega

/-- The amended C1 at page 9 of 10. -/
theorem window_size_witness :
    ((windowPages ⟨9, 10, 120, some 12, false, true⟩).length : Int)
        = min 5 ((10 : Int) - startPage ⟨9, 10, 120, some 12, false, true⟩)
      ∧ ((windowPages ⟨9, 10, 120, some 12, false, true⟩).length : Int) ≤ min 5 10
      ∧ (((windowPages ⟨9, 10, 120, some 12, false, true⟩).length : Int) = min 5 10
          ↔ ((9 : Int) ≤ 2 ∨ (9 : Int) + 3 ≤ 10)) :=
  window_size ⟨9, 10, 120, some 12, false, true⟩ (by decide) (by decide) (by decide)

/-! ### C2 -/

/-- C2: for `totalPages > 1` and a current page in range, the window contains
the current page, and the rendered list has exactly one page link marked
active. -/
theorem window_contains_current (p : Pagination) (ht : 1 < p.totalPages)
    (h0 : 0 ≤ p.currentPage) (h1 : p.currentPage < p.totalPages) :
    startPage p ≤ p.currentPage ∧ p.currentPage ≤ endPage p
      ∧ p.currentPage ∈ windowPages p
      ∧ ∃ items, renderPagination p = some items ∧ activeCount items = 1 := by
  have hs := startPage_eq p
  have he := endPage_eq p
  have hin : startPage p ≤ p.currentPage ∧ p.currentPage ≤ endPage p := by omega
  refine ⟨hin.1, hin.2, (mem_windowPages p _).2 hin, ?_⟩
  refine ⟨_, renderPagination_eq p ht, ?_⟩
  have hw : activeCount (windowBlock p) = 1 := by
    rw [activeCount_windowBlock, windowPages_count, if_pos hin]
  have hl := activeCount_leadingBlock p
  have hr := activeCount_trailingBlock p
  unfold activeCount at hw hl hr ⊢
  simp only [List.countP_append, hw, hl, hr]
  simp [PageItem.isActive]

/-- C2 at page 9 of 10. -/
theorem window_contains_current_witness :
    startPage ⟨9, 10, 120, some 12, false, true⟩ ≤ 9
      ∧ (9 : Int) ≤ endPage ⟨9, 10, 120, some 12, false, true⟩
      ∧ (9 : Int) ∈ windowPages ⟨9, 10, 120, some 12, false, true⟩
      ∧ ∃ items, renderPagination ⟨9, 10, 120, some 12, false, true⟩ = some items
          ∧ activeCount items = 1 :=
  window_contains_current ⟨9, 10, 120, some 12, false, true⟩
    (by decide) (by decide) (by decide)

/-! ### C10 -/

/-- C10: for `totalPages > 1` and a current page in range, the numbered page
buttons are, in order, the separate first-page button when `startPage > 0`,
the window, and the separate last-page button when `endPage < totalPages - 1`;
their indices are strictly increasing, lie in `[0, totalPages)`, include page
`0` and page `totalPages - 1` exactly once each, and each side shows an
ellipsis exactly when a page index lies strictly between the separate button
and the window. -/
theorem page_buttons_ordered (p : Pagination) (ht : 1 < p.totalPages)
    (h0 : 0 ≤ p.currentPage) (h1 : p.currentPage < p.totalPages) :
    ∃ items, renderPagination p = some items
      ∧ pageIndices items
          = (if startPage p > 0 then [0] else []) ++ windowPages p
              ++ (if endPage p < p.totalPages - 1 then [p.totalPages - 1] else [])
      ∧ (pageIndices items).Pairwise (· < ·)
      ∧ (∀ k ∈ pageIndices items, 0 ≤ k ∧ k < p.totalPages)
      ∧ (pageIndices items).count 0 = 1
      ∧ (pageIndices items).count (p.totalPages - 1) = 1
      ∧ (PageItem.ellipsis ∈ leadingBlock p ↔ ∃ k, 0 < k ∧ k < startPage p)
      ∧ (PageItem.ellipsis ∈ trailingBlock p
          ↔ ∃ k, endPage p < k ∧ k < p.totalPages - 1) := by
  have hs := startPage_eq p
  have he := endPage_eq p
  have hin : startPage p ≤ p.currentPage ∧ p.currentPage ≤ endPage p := by omega
  have hex := renderPagination_eq p ht
  refine ⟨_, hex, pageIndices_render p _ hex, ?_, ?_, ?_, ?_, ?_, ?_⟩
  · rw [pageIndices_render p _ hex]
    simp only [List.pairwise_append, windowPages_pairwise, List.mem_append, mem_windowPages]
    split_ifs <;> simp <;> (try constructorm* _ ∧ _) <;> intros <;> omega
  · rw [pageIndices_render p _ hex]
    intro k hk
    simp only [List.mem_append, mem_windowPages] at hk
    split_ifs at hk <;> simp at hk <;> omega
  · rw [pageIndices_render p _ hex]
    simp only [List.count_append, windowPages_count]
    split_ifs <;> simp only [count_singleton_int, List.count_nil] <;> (try split_ifs) <;> omega
  · rw [pageIndices_render p _ hex]
    simp only [List.count_append, windowPages_count]
    split_ifs <;> simp only [count_singleton_int, List.count_nil] <;> (try split_ifs) <;> omega
  · unfold leadingBlock
    split_ifs with ha hb
    · refine ⟨fun _ => ⟨1, by omega, by omega⟩, fun _ => by simp⟩
    · refine ⟨fun h => by simp at h, ?_⟩
      rintro ⟨k, hk1, hk2⟩
      omega
    · refine ⟨fun h => by simp at h, ?_⟩
      rintro ⟨k, hk1, hk2⟩
      omega
  · unfold trailingBlock
    split_ifs with ha hb
    · refine ⟨fun _ => ⟨endPage p + 1, by omega, by omega⟩, fun _ => by simp⟩
    · refine ⟨fun h => by simp at h, ?_⟩
      rintro ⟨k, hk1, hk2⟩
      omega
    · refine ⟨fun h => by simp at h, ?_⟩
      rintro ⟨k, hk1, hk2⟩
      omega

/-- C10 at page 5 of 12: buttons 0, 3..7, 11 with an ellipsis on both
sides. -/
theorem page_buttons_ordered_witness :
    ∃ items, renderPagination ⟨5, 12, 140, some 12, true, true⟩ = some items
      ∧ pageIndices items
          = (if startPage ⟨5, 12, 140, some 12, true, true⟩ > 0 then [0] else [])
              ++ windowPages ⟨5, 12, 140, some 12, true, true⟩
              ++ (if endPage ⟨5, 12, 140, some 12, true, true⟩ < (12 : Int) - 1
                    then [(12 : Int) - 1] else [])
      ∧ (pageIndices items).Pairwise (· < ·)
      ∧ (∀ k ∈ pageIndices items, 0 ≤ k ∧ k < 12)
      ∧ (pageIndices items).count 0 = 1
      ∧ (pageIndices items).count ((12 : Int) - 1) = 1
      ∧ (PageItem.ellipsis ∈ leadingBlock ⟨5, 12, 140, some 12, true, true⟩
          ↔ ∃ k, 0 < k ∧ k < startPage ⟨5, 12, 140, some 12, true, true⟩)
      ∧ (PageItem.ellipsis ∈ trailingBlock ⟨5, 12, 140, some 12, true, true⟩
          ↔ ∃ k, endPage ⟨5, 12, 140, some 12, true, true⟩ < k ∧ k < (12 : Int) - 1) :=
  page_buttons_ordered ⟨5, 12, 140, some 12, true, true⟩ (by decide) (by decide) (by decide)

/-! ## Properties of objects -/

theorem objGet_objSet_same (o : Obj) (key : String) (value : JSVal) :
    objGet (objSet o key value) key = value := by
  induction o with
  | nil => simp [objSet, objGet]
  | cons kv rest ih =>
    obtain ⟨k, v⟩ := kv
    by_cases h : k = key
    · simp [objSet, objGet, h]
    · simp only [objSet, if_neg h]
      simpa [objGet, h] using ih

theorem objGet_objSet_other (o : Obj) (key other : String) (value : JSVal)
    (hne : other ≠ key) :
    objGet (objSet o key value) other = objGet o other := by
  induction o with
  | nil => simp [objSet, objGet, Ne.symm hne]
  | cons kv rest ih =>
    obtain ⟨k, v⟩ := kv
    by_cases h : k = key
    · have hk : k ≠ other := fun e => hne (e ▸ h)
      simp [objSet, objGet, h, Ne.symm hne]
    · simp only [objSet, if_neg h]
      by_cases hk : k = other
      · simp [objGet, hk]
      · simpa [objGet, hk] using ih

/-! ## Properties of the fetch life cycle -/

theorem error_none_of_no_failure (events : List FetchEvent) (s : ViewState)
    (hs : s.error = none) (hev : ∀ e ∈ events, e.isFailure = false) :
    (runFetchEvents s events).error = none := by
  induction events generalizing s with
  | nil => simpa [runFetchEvents] using hs
  | cons e rest ih =>
    have hrest : ∀ e' ∈ rest, e'.isFailure = false :=
      fun e' he' => hev e' (List.mem_cons_of_mem _ he')
    have he : e.isFailure = false := hev e (List.mem_cons_self _ _)
    have hstep : (fetchStep s e).error = none := by
      cases e with
      | issue page => rfl
      | settle outcome =>
        cases outcome with
        | fulfilled response =>
          have hsucc : response.success = true := by
            simpa [FetchEvent.isFailure] using he
          simp [fetchStep, loadProductsSettled, hsucc, hs]
        | rejected message => simp [FetchEvent.isFailure] at he
    simpa [runFetchEvents] using ih (fetchStep s e) hstep hrest

/-! ### C3 -/

/-- C3: when a product fetch is fulfilled with `success = false` and a
non-empty message `m`, or is rejected with an error of message `m`, handling it
leaves `products` and `pagination` as they were (both relative to the state `t`
in which the request settles and, when nothing intervenes, relative to the
state `s` in which `loadProducts` was called), sets `error` to `m` and
`loading` to `false`, and shows exactly one toast, `(m, 'error')`. -/
theorem fetch_failure_keeps_data (s t : ViewState) (page : Int)
    (outcome : Settled ProductsResponse) (m : String)
    (h : (∃ r : ProductsResponse, outcome = Settled.fulfilled r ∧ r.success = false
            ∧ r.message = some m ∧ m ≠ "")
          ∨ outcome = Settled.rejected m) :
    (loadProductsSettled t outcome).products = t.products
      ∧ (loadProductsSettled t outcome).pagination = t.pagination
      ∧ (loadProductsSettled t outcome).error = some m
      ∧ (loadProductsSettled t outcome).loading = false
      ∧ (loadProductsSettled t outcome).toasts = t.toasts ++ [⟨m, "error"⟩]
      ∧ (loadProductsSettled (loadProducts s page) outcome).products = s.products
      ∧ (loadProductsSettled (loadProducts s page) outcome).pagination = s.pagination
      ∧ (loadProductsSettled (loadProducts s page) outcome).toasts
          = s.toasts ++ [⟨m, "error"⟩] := by
  have key : ∀ u : ViewState, loadProductsSettled u outcome = loadProductsCatch u m := by
    intro u
    rcases h with ⟨r, rfl, hs, hm, hne⟩ | rfl
    · simp [loadProductsSettled, hs, hm, orElse, hne]
    · rfl
  simp [key, loadProductsCatch, showToast, loadProducts]

/-- C3 on the initial state, for a rejected request. -/
theorem fetch_failure_keeps_data_witness :
    (loadProductsSettled initialState (Settled.rejected "server error")).products
        = initialState.products
      ∧ (loadProductsSettled initialState (Settled.rejected "server error")).pagination
        = initialState.pagination
      ∧ (loadProductsSettled initialState (Settled.rejected "server error")).error
        = some "server error"
      ∧ (loadProductsSettled initialState (Settled.rejected "server error")).loading = false
      ∧ (loadProductsSettled initialState (Settled.rejected "server error")).toasts
        = initialState.toasts ++ [⟨"server error", "error"⟩]
      ∧ (loadProductsSettled (loadProducts initialState 0)
          (Settled.rejected "server error")).products = initialState.products
      ∧ (loadProductsSettled (loadProducts initialState 0)
          (Settled.rejected "server error")).pagination = initialState.pagination
      ∧ (loadProductsSettled (loadProducts initialState 0)
          (Settled.rejected "server error")).toasts
          = initialState.toasts ++ [⟨"server error", "error"⟩] :=
  fetch_failure_keeps_data initialState initialState 0 (Settled.rejected "server error")
    "server error" (Or.inr rfl)

/-! ### C4 -/

/-- C4 fails as stated: two fetches are issued, the second is rejected, then
the first is fulfilled with `success = true`; after that `error` still holds
the message of the rejected fetch. -/
theorem success_status_counterexample :
    (runFetchEvents initialState
      [FetchEvent.issue 0, FetchEvent.issue 1,
        FetchEvent.settle (Settled.rejected "timeout"),
        FetchEvent.settle (Settled.fulfilled
          ⟨true, [], ⟨0, 3, 30, some 12, true, false⟩, none⟩)]).error = some "timeout"
      ∧ (runFetchEvents initialState
      [FetchEvent.issue 0, FetchEvent.issue 1,
        FetchEvent.settle (Settled.rejected "timeout"),
        FetchEvent.settle (Settled.fulfilled
          ⟨true, [], ⟨0, 3, 30, some 12, true, false⟩, none⟩)]).error ≠ none := by
  constructor
  · rfl
  · intro h
    cases h

/-- C4 (amended): when a product fetch is fulfilled with `success = true`, in
whatever state `t` this happens, afterwards `products` is `response.data`,
`pagination` is `response.pagination`, `loading` is `false`, and `error` is
what it was in `t`; `error` is `null` when, since the call of `loadProducts`,
only calls of `loadProducts` and successful fetches were handled. -/
theorem success_commit (t s : ViewState) (page : Int) (events : List FetchEvent)
    (r : ProductsResponse) (hr : r.success = true)
    (hev : ∀ e ∈ events, e.isFailure = false) :
    (loadProductsSettled t (Settled.fulfilled r)).products = r.data
      ∧ (loadProductsSettled t (Settled.fulfilled r)).pagination = r.pagination
      ∧ (loadProductsSettled t (Settled.fulfilled r)).loading = false
      ∧ (loadProductsSettled t (Settled.fulfilled r)).error = t.error
      ∧ (loadProductsSettled (runFetchEvents (loadProducts s page) events)
          (Settled.fulfilled r)).error = none := by
  have hn : (runFetchEvents (loadProducts s page) events).error = none :=
    error_none_of_no_failure events _ rfl hev
  simp [loadProductsSettled, hr, hn]

/-- The amended C4 for a fetch fulfilled while a later one is in flight. -/
theorem success_commit_witness :
    (loadProductsSettled (loadProductsCatch initialState "timeout") (Settled.fulfilled
        ⟨true, [], ⟨0, 3, 30, some 12, true, false⟩, none⟩)).products = []
      ∧ (loadProductsSettled (loadProductsCatch initialState "timeout") (Settled.fulfilled
        ⟨true, [], ⟨0, 3, 30, some 12, true, false⟩, none⟩)).pagination
          = ⟨0, 3, 30, some 12, true, false⟩
      ∧ (loadProductsSettled (loadProductsCatch initialState "timeout") (Settled.fulfilled
        ⟨true, [], ⟨0, 3, 30, some 12, true, false⟩, none⟩)).loading = false
      ∧ (loadProductsSettled (loadProductsCatch initialState "timeout") (Settled.fulfilled
        ⟨true, [], ⟨0, 3, 30, some 12, true, false⟩, none⟩)).error
          = (loadProductsCatch initialState "timeout").error
      ∧ (loadProductsSettled
          (runFetchEvents (loadProducts initialState 0) [FetchEvent.issue 1])
          (Settled.fulfilled ⟨true, [], ⟨0, 3, 30, some 12, true, false⟩, none⟩)).error
          = none :=
  success_commit (loadProductsCatch initialState "timeout") initialState 0
    [FetchEvent.issue 1] ⟨true, [], ⟨0, 3, 30, some 12, true, false⟩, none⟩ rfl
    (by simp [FetchEvent.isFailure])

/-! ### C5 -/

/-- C5: `handlePageChange(n)` calls `loadProducts(n)`, sending one request for
page `n`, if and only if `0 <= n < pagination.totalPages`; for `n < 0` or
`n >= pagination.totalPages` it leaves the whole state as it was: no request,
no toast, and `products`, `pagination`, `filters`, `loading`, `error`
unchanged. -/
theorem page_change_guard (s : ViewState) (n : Int) :
    ((0 ≤ n ∧ n < s.pagination.totalPages) → handlePageChange s n = loadProducts s n)
      ∧ ((handlePageChange s n).requests = s.requests ++ [loadProductsParams s n]
          ↔ (0 ≤ n ∧ n < s.pagination.totalPages))
      ∧ ((n < 0 ∨ n ≥ s.pagination.totalPages) →
          handlePageChange s n = s ∧ (handlePageChange s n).requests = s.requests
            ∧ (handlePageChange s n).toasts = s.toasts) := by
  unfold handlePageChange
  by_cases h : n ≥ 0 ∧ n < s.pagination.totalPages
  · rw [if_pos h]
    refine ⟨fun _ => rfl, ⟨fun _ => ⟨h.1, h.2⟩, fun _ => rfl⟩, ?_⟩
    intro h'
    omega
  · rw [if_neg h]
    refine ⟨fun h' => absurd ⟨h'.1, h'.2⟩ h, ⟨?_, fun h' => absurd ⟨h'.1, h'.2⟩ h⟩,
      fun _ => ⟨rfl, rfl, rfl⟩⟩
    intro heq
    have hlen := congrArg List.length heq
    simp at hlen

/-! ### C6 -/

/-- C6: `handleFilterChange(key, value)` gives a `filters` object whose
property `key` is `value` and whose other properties are as before; the fetch
that the reload effect then issues has `page = 0` and carries the updated
filters (every property other than `page` and `size`, which `params` sets
itself), whatever `pagination.currentPage` is. -/
theorem filter_change_refetch (s : ViewState) (key : String) (value : JSVal) :
    objGet (handleFilterChange s key value).filters key = value
      ∧ (∀ other, other ≠ key →
          objGet (handleFilterChange s key value).filters other = objGet s.filters other)
      ∧ (reloadEffect (handleFilterChange s key value)).requests
          = s.requests ++ [loadProductsParams (handleFilterChange s key value) 0]
      ∧ objGet (loadProductsParams (handleFilterChange s key value) 0) "page" = JSVal.num 0
      ∧ (∀ k, k ≠ "page" → k ≠ "size" →
          objGet (loadProductsParams (handleFilterChange s key value) 0) k
            = objGet (handleFilterChange s key value).filters k) := by
  refine ⟨objGet_objSet_same _ _ _, fun other h => objGet_objSet_other _ _ _ _ h, rfl, ?_, ?_⟩
  · unfold loadProductsParams
    rw [objGet_objSet_other _ _ _ _ (by decide), objGet_objSet_same]
  · intro k hp hs
    unfold loadProductsParams
    rw [objGet_objSet_other _ _ _ _ hs, objGet_objSet_other _ _ _ _ hp]

/-! ### C7 -/

/-- C7: for every previous `cartCount` and product name, a response with
`success = true` and `data.totalQuantity = q` sets `cartCount` to `q` and shows
one `'success'` toast; a response with `success = false`, or a rejected
request, leaves `cartCount` as it was and shows one `'error'` toast. -/
theorem add_to_cart_count (s : ViewState) (productName : String) :
    (∀ (q : Int) (message : Option String),
        (handleAddToCartSettled s productName
            (Settled.fulfilled ⟨true, some ⟨q⟩, message⟩)).cartCount = q
          ∧ (handleAddToCartSettled s productName
            (Settled.fulfilled ⟨true, some ⟨q⟩, message⟩)).toasts
              = s.toasts ++ [⟨productName ++ " 已添加到购物车", "success"⟩])
      ∧ (∀ (data : Option CartData) (message : Option String),
        (handleAddToCartSettled s productName
            (Settled.fulfilled ⟨false, data, message⟩)).cartCount = s.cartCount
          ∧ (handleAddToCartSettled s productName
            (Settled.fulfilled ⟨false, data, message⟩)).toasts
              = s.toasts ++ [⟨orElse message "添加失败", "error"⟩])
      ∧ (∀ m : String,
        (handleAddToCartSettled s productName (Settled.rejected m)).cartCount = s.cartCount
          ∧ (handleAddToCartSettled s productName (Settled.rejected m)).toasts
              = s.toasts ++ [⟨m, "error"⟩]) := by
  refine ⟨fun q message => ⟨rfl, rfl⟩, fun data message => ⟨rfl, rfl⟩, fun m => ⟨rfl, rfl⟩⟩

/-! ### C9 -/

/-- C9 fails as stated: the value `"0"` is not rejected; the handler stores
size `0` in place of `12`, and the fetch of the reload effect that follows is
sent with `size = 0`. -/
theorem page_size_counterexample :
    (pageSizeOnChange initialState "0").pagination.size = some 0
      ∧ (pageSizeOnChange initialState "0").pagination.size ≠ initialState.pagination.size
      ∧ (reloadEffect (pageSizeOnChange initialState "0")).requests.map
          (fun params => objGet params "size") = [JSVal.num 0] := by
  decide

/-- C9 (amended): for every value delivered by the page-size control the
handler stores `parseInt(value)` as `pagination.size`, with no check against
12, 24 and 48, and changes nothing else; the fetch of the reload effect that
follows is sent with that size. The option values `"12"`, `"24"`, `"48"` give
12, 24, 48; `"0"` gives 0, `"-5"` gives -5 and `"abc"` gives `NaN`. -/
theorem page_size_stored (s : ViewState) (value : String) :
    pageSizeOnChange s value
        = { s with pagination := { s.pagination with size := parseInt value } }
      ∧ (reloadEffect (pageSizeOnChange s value)).requests
          = s.requests ++ [loadProductsParams (pageSizeOnChange s value) 0]
      ∧ objGet (loadProductsParams (pageSizeOnChange s value) 0) "size"
          = numVal (parseInt value)
      ∧ parseInt "12" = some 12 ∧ parseInt "24" = some 24 ∧ parseInt "48" = some 48
      ∧ parseInt "0" = some 0 ∧ parseInt "-5" = some (-5) ∧ parseInt "abc" = none := by
  refine ⟨rfl, rfl, ?_, by decide, by decide, by decide, by decide, by decide, by decide⟩
  unfold loadProductsParams
  rw [objGet_objSet_same]
  rfl

/-! ## Properties of debounce -/

theorem advance_idle {α : Type} (g : Nat) (w : EventLoop α) (h : w.timers = []) :
    advance g w = { w with now := w.now + g } := by
  simp [advance, h, runTimers]

theorem advance_early {α : Type} (g : Nat) (w : EventLoop α) (t : Timer α)
    (h : w.timers = [t]) (hdue : w.now + g < t.due) :
    advance g w = { w with now := w.now + g } := by
  simp [advance, h, runTimers, nextDue, earliest, Nat.not_le.2 hdue]

theorem advance_fire {α : Type} (dt : Nat) (w : EventLoop α) (t : Timer α)
    (h : w.timers = [t]) (hto : w.timeout t.owner = some t.id) (hdue : t.due ≤ w.now + dt) :
    advance dt w
      = { w with
          timers := []
          invoked := w.invoked ++ [⟨t.owner, t.args, max w.now t.due⟩]
          now := w.now + dt } := by
  simp [advance, h, runTimers, nextDue, earliest, hdue, later, clearTimeout, hto]

theorem executedFunction_idle {α : Type} (d : Debounced) (args : α) (w : EventLoop α)
    (h : w.timers = []) :
    Armed d args (executedFunction d args w)
      ∧ (executedFunction d args w).now = w.now
      ∧ (executedFunction d args w).invoked = w.invoked := by
  refine ⟨⟨w.nextId, ?_, ?_⟩, ?_, ?_⟩ <;>
    cases hto : w.timeout d.slot <;> simp [executedFunction, clearTimeout, h, hto]

theorem executedFunction_armed {α : Type} (d : Debounced) (prev args : α) (g : Nat)
    (w : EventLoop α) (h : Armed d prev w) (hg : g < d.wait) :
    Armed d args (executedFunction d args (advance g w))
      ∧ (executedFunction d args (advance g w)).now = w.now + g
      ∧ (executedFunction d args (advance g w)).invoked = w.invoked := by
  obtain ⟨id, ht, hto⟩ := h
  rw [advance_early g w _ ht (by simp; omega)]
  refine ⟨⟨w.nextId, ?_, ?_⟩, ?_, ?_⟩ <;>
    simp [executedFunction, clearTimeout, ht, hto]

theorem callSeries_armed {α : Type} (d : Debounced) (rest : List (Nat × α)) :
    ∀ (args : α) (w : EventLoop α), Armed d args w → (∀ c ∈ rest, c.1 < d.wait) →
      Armed d (lastArgs args rest) (callSeries d rest w)
        ∧ (callSeries d rest w).now = w.now + (rest.map Prod.fst).sum
        ∧ (callSeries d rest w).invoked = w.invoked := by
  induction rest with
  | nil =>
    intro args w h _
    exact ⟨h, by simp [callSeries], rfl⟩
  | cons c rest ih =>
    intro args w h hg
    obtain ⟨g, next⟩ := c
    have hstep := executedFunction_armed d args next g w h (hg (g, next) (List.mem_cons_self _ _))
    have hrest := ih next _ hstep.1 (fun c hc => hg c (List.mem_cons_of_mem _ hc))
    refine ⟨hrest.1, ?_, ?_⟩
    · simp only [callSeries, hrest.2.1, hstep.2.1, List.map_cons, List.sum_cons]
      omega
    · simp only [callSeries, hrest.2.2, hstep.2.2]

theorem lastArgs_append {α : Type} (rest : List (Nat × α)) :
    ∀ (args : α) (g : Nat) (a : α), lastArgs args (rest ++ [(g, a)]) = a := by
  induction rest with
  | nil => intros; rfl
  | cons c rest ih =>
    intro args g a
    obtain ⟨g', next⟩ := c
    simpa [lastArgs] using ih next g a

theorem callSeries_from_idle {α : Type} (d : Debounced) (front : List (Nat × α)) (g : Nat)
    (a : α) (w : EventLoop α) (h : w.timers = [])
    (hg : ∀ c ∈ (front ++ [(g, a)]).tail, c.1 < d.wait) :
    Armed d a (callSeries d (front ++ [(g, a)]) w)
      ∧ (callSeries d (front ++ [(g, a)]) w).now
          = w.now + ((front ++ [(g, a)]).map Prod.fst).sum
      ∧ (callSeries d (front ++ [(g, a)]) w).invoked = w.invoked := by
  have hadv : ∀ k : Nat, (advance k w).timers = [] ∧ (advance k w).now = w.now + k
      ∧ (advance k w).invoked = w.invoked := by
    intro k
    rw [advance_idle k w h]
    exact ⟨h, rfl, rfl⟩
  cases front with
  | nil =>
    have h1 := executedFunction_idle d a (advance g w) (hadv g).1
    refine ⟨h1.1, ?_, ?_⟩
    · show (executedFunction d a (advance g w)).now = _
      rw [h1.2.1, (hadv g).2.1]
      simp
    · show (executedFunction d a (advance g w)).invoked = _
      rw [h1.2.2, (hadv g).2.2]
  | cons c front =>
    obtain ⟨g0, a0⟩ := c
    have h1 := executedFunction_idle d a0 (advance g0 w) (hadv g0).1
    have h2 := callSeries_armed d (front ++ [(g, a)]) a0 _ h1.1 (by simpa using hg)
    rw [lastArgs_append] at h2
    refine ⟨h2.1, ?_, ?_⟩
    · show (callSeries d (front ++ [(g, a)]) (executedFunction d a0 (advance g0 w))).now = _
      rw [h2.2.1, h1.2.1, (hadv g0).2.1]
      simp only [List.cons_append, List.map_cons, List.sum_cons]
      omega
    · show (callSeries d (front ++ [(g, a)]) (executedFunction d a0 (advance g0 w))).invoked = _
      rw [h2.2.2, h1.2.2, (hadv g0).2.2]

theorem wf_initial (α : Type) : (EventLoop.initial α).WellFormed := by
  constructor <;> simp [EventLoop.initial]

theorem wf_clearTimeout {α : Type} (w : EventLoop α) (hw : w.WellFormed) (id : Option Nat) :
    (clearTimeout id w).WellFormed := by
  cases id with
  | none => exact hw
  | some i =>
    refine ⟨?_, hw.timeout_lt, ?_⟩
    · intro t ht
      exact hw.ids_lt t (List.mem_filter.1 ht).1
    · intro slot id hid t ht
      exact hw.timeout_owner slot id hid t (List.mem_filter.1 ht).1

theorem wf_executedFunction {α : Type} (w : EventLoop α) (hw : w.WellFormed)
    (d : Debounced) (args : α) : (executedFunction d args w).WellFormed := by
  have hc := wf_clearTimeout w hw (w.timeout d.slot)
  have hid : (clearTimeout (w.timeout d.slot) w).nextId = w.nextId := by
    cases w.timeout d.slot <;> rfl
  have hto : (clearTimeout (w.timeout d.slot) w).timeout = w.timeout := by
    cases w.timeout d.slot <;> rfl
  refine ⟨?_, ?_, ?_⟩
  · intro t ht
    simp only [executedFunction, List.mem_append, List.mem_singleton] at ht ⊢
    rcases ht with ht | rfl
    · exact Nat.lt_succ_of_lt (hc.ids_lt t ht)
    · exact Nat.lt_succ_self _
  · intro slot id h
    simp only [executedFunction, Function.update_apply] at h ⊢
    split_ifs at h with hs
    · cases h
      exact Nat.lt_succ_self _
    · exact Nat.lt_succ_of_lt (hc.timeout_lt slot id h)
  · intro slot id h t ht hti
    simp only [executedFunction, Function.update_apply, List.mem_append,
      List.mem_singleton] at h ht
    split_ifs at h with hs
    · cases h
      rcases ht with ht | rfl
      · exact absurd hti (Nat.ne_of_lt (hc.ids_lt t ht))
      · exact hs.symm
    · rcases ht with ht | rfl
      · exact hc.timeout_owner slot id h t ht hti
      · exact absurd hti.symm (Nat.ne_of_lt (hc.timeout_lt slot id h))

theorem wf_later {α : Type} (w : EventLoop α) (hw : w.WellFormed) (t : Timer α) :
    (later t w).WellFormed := by
  have hc := wf_clearTimeout w hw (w.timeout t.owner)
  exact ⟨hc.ids_lt, hc.timeout_lt, hc.timeout_owner⟩

theorem wf_runTimers {α : Type} (target fuel : Nat) :
    ∀ w : EventLoop α, w.WellFormed → (runTimers target fuel w).WellFormed := by
  induction fuel with
  | zero => intro w hw; exact hw
  | succ fuel ih =>
    intro w hw
    unfold runTimers
    cases nextDue target w.timers with
    | none => exact hw
    | some t =>
      apply ih
      apply wf_later
      refine ⟨?_, hw.timeout_lt, ?_⟩
      · intro u hu
        exact hw.ids_lt u (List.mem_filter.1 hu).1
      · intro slot id hid u hu
        exact hw.timeout_owner slot id hid u (List.mem_filter.1 hu).1

theorem wf_advance {α : Type} (w : EventLoop α) (hw : w.WellFormed) (dt : Nat) :
    (advance dt w).WellFormed := by
  have hr := wf_runTimers (w.now + dt) w.timers.length w hw
  exact ⟨hr.ids_lt, hr.timeout_lt, hr.timeout_owner⟩

theorem wf_debounce {α : Type} (w : EventLoop α) (hw : w.WellFormed) (wait : Nat) :
    (debounce wait w).2.WellFormed := by
  refine ⟨hw.ids_lt, ?_, ?_⟩
  · intro slot id h
    simp only [debounce, Function.update_apply] at h
    split_ifs at h
    exact hw.timeout_lt slot id h
  · intro slot id h
    simp only [debounce, Function.update_apply] at h
    split_ifs at h
    exact hw.timeout_owner slot id h

theorem wf_runLoop {α : Type} (events : List (LoopEvent α)) :
    ∀ w : EventLoop α, w.WellFormed → (runLoop w events).WellFormed := by
  induction events with
  | nil => intro w hw; exact hw
  | cons e events ih =>
    intro w hw
    apply ih
    cases e with
    | create wait => exact wf_debounce w hw wait
    | call d args => exact wf_executedFunction w hw d args
    | pass dt => exact wf_advance w hw dt

theorem pendingOf_clearTimeout {α : Type} (w : EventLoop α) (hw : w.WellFormed)
    (s slot : Nat) (hne : slot ≠ s) :
    pendingOf slot (clearTimeout (w.timeout s) w) = pendingOf slot w := by
  cases hs : w.timeout s with
  | none => rfl
  | some i =>
    simp only [pendingOf, clearTimeout, List.filter_filter]
    apply List.filter_congr
    intro t ht
    by_cases ho : t.owner = slot
    · have hid : t.id ≠ i := fun e => hne (ho.symm.trans (hw.timeout_owner s i hs t ht e))
      simp [ho, hid]
    · simp [ho]

theorem pendingOf_executedFunction {α : Type} (w : EventLoop α) (hw : w.WellFormed)
    (d : Debounced) (args : α) (slot : Nat) (hne : slot ≠ d.slot) :
    pendingOf slot (executedFunction d args w) = pendingOf slot w := by
  have hc := pendingOf_clearTimeout w hw d.slot slot hne
  unfold pendingOf at hc ⊢
  simp only [executedFunction, List.filter_append, hc]
  simp [Ne.symm hne]

theorem pendingOf_later {α : Type} (w : EventLoop α) (hw : w.WellFormed)
    (t : Timer α) (slot : Nat) (hne : slot ≠ t.owner) :
    pendingOf slot (later t w) = pendingOf slot w :=
  pendingOf_clearTimeout w hw t.owner slot hne

theorem nextSlot_clearTimeout {α : Type} (w : EventLoop α) (id : Option Nat) :
    (clearTimeout id w).nextSlot = w.nextSlot := by
  cases id <;> rfl

theorem nextSlot_runTimers {α : Type} (target fuel : Nat) :
    ∀ w : EventLoop α, (runTimers target fuel w).nextSlot = w.nextSlot := by
  induction fuel with
  | zero => intro w; rfl
  | succ fuel ih =>
    intro w
    unfold runTimers
    cases nextDue target w.timers with
    | none => rfl
    | some t =>
      simp only
      rw [ih]
      simp only [later]
      rw [nextSlot_clearTimeout]

theorem nextSlot_le_runLoop {α : Type} (events : List (LoopEvent α)) :
    ∀ w : EventLoop α, w.nextSlot ≤ (runLoop w events).nextSlot := by
  induction events with
  | nil => intro w; exact Nat.le_refl _
  | cons e events ih =>
    intro w
    refine Nat.le_trans ?_ (ih (loopStep w e))
    cases e with
    | create wait => exact Nat.le_succ _
    | call d args =>
      show w.nextSlot ≤ (clearTimeout (w.timeout d.slot) w).nextSlot
      rw [nextSlot_clearTimeout]
    | pass dt =>
      show w.nextSlot ≤ (runTimers (w.now + dt) w.timers.length w).nextSlot
      rw [nextSlot_runTimers]

theorem earliest_mem {α : Type} (ts : List (Timer α)) :
    ∀ t, earliest ts = some t → t ∈ ts := by
  induction ts with
  | nil => intro t h; simp [earliest] at h
  | cons u ts ih =>
    intro t h
    unfold earliest at h
    cases he : earliest ts with
    | none =>
      rw [he] at h
      simp only [Option.some.injEq] at h
      exact h ▸ List.mem_cons_self _ _
    | some v =>
      rw [he] at h
      simp only at h
      split_ifs at h
      · simp only [Option.some.injEq] at h
        exact List.mem_cons_of_mem _ (ih t (h ▸ he))
      · simp only [Option.some.injEq] at h
        exact h ▸ List.mem_cons_self _ _

theorem nextDue_mem {α : Type} (target : Nat) (ts : List (Timer α)) (t : Timer α)
    (h : nextDue target ts = some t) : t ∈ ts := by
  unfold nextDue at h
  cases he : earliest ts with
  | none => simp [he] at h
  | some v =>
    simp only [he] at h
    split_ifs at h
    simp only [Option.some.injEq] at h
    exact h ▸ earliest_mem ts v he

theorem later_timers_length {α : Type} (t : Timer α) (w : EventLoop α) :
    (later t w).timers.length ≤ w.timers.length := by
  unfold later clearTimeout
  cases w.timeout t.owner with
  | none => exact Nat.le_refl _
  | some i => exact List.length_filter_le _ _

/-- The fuel that `advance` gives `runTimers` is enough: afterwards no pending
timer is due. -/
theorem runTimers_done {α : Type} (target fuel : Nat) :
    ∀ w : EventLoop α, w.timers.length ≤ fuel →
      nextDue target (runTimers target fuel w).timers = none := by
  induction fuel with
  | zero =>
    intro w hw
    have : w.timers = [] := List.length_eq_zero.1 (Nat.le_zero.1 hw)
    simp [runTimers, this, nextDue, earliest]
  | succ fuel ih =>
    intro w hw
    unfold runTimers
    cases hn : nextDue target w.timers with
    | none => simpa using hn
    | some t =>
      simp only
      apply ih
      refine Nat.le_trans (later_timers_length _ _) ?_
      have hmem := nextDue_mem target w.timers t hn
      have hlt : (w.timers.filter (fun u => decide (u.id ≠ t.id))).length < w.timers.length :=
        List.length_filter_lt_length_iff_exists.2 ⟨t, hmem, by simp⟩
      simp only
      omega

theorem advance_done {α : Type} (dt : Nat) (w : EventLoop α) :
    nextDue (w.now + dt) (advance dt w).timers = none :=
  runTimers_done (w.now + dt) w.timers.length w (Nat.le_refl _)

/-! ### C8 -/

/-- C8: a debounced function `d` is called `N >= 1` times, the last time with
arguments `a`, starting with no timer pending, every call after the first less
than `wait` after the one before. Then the wrapped function is not called
during the series nor in the `wait` that follows, and once `wait` or more has
passed after the last call it has been called exactly once, with `a`, at the
time of the last call plus `wait`. Moreover, on every event loop reached from
the start, a call of one debounced function and the `later` of its timer leave
the pending timers of every other debounced function as they are, and two
calls of `debounce` give functions with different closures. -/
theorem debounce_fires_once {α : Type} (d : Debounced) (w0 : EventLoop α)
    (front : List (Nat × α)) (g : Nat) (a : α) (dt : Nat)
    (hidle : w0.timers = [])
    (hgaps : ∀ c ∈ (front ++ [(g, a)]).tail, c.1 < d.wait)
    (hdt : d.wait ≤ dt) :
    (callSeries d (front ++ [(g, a)]) w0).invoked = w0.invoked
      ∧ (∀ early, early < d.wait →
          (advance early (callSeries d (front ++ [(g, a)]) w0)).invoked = w0.invoked)
      ∧ (advance dt (callSeries d (front ++ [(g, a)]) w0)).invoked
          = w0.invoked
            ++ [⟨d.slot, a, w0.now + ((front ++ [(g, a)]).map Prod.fst).sum + d.wait⟩]
      ∧ (advance dt (callSeries d (front ++ [(g, a)]) w0)).timers = []
      ∧ (∀ (events : List (LoopEvent α)) (x y : Debounced) (args : α), x.slot ≠ y.slot →
          pendingOf y.slot (executedFunction x args (runLoop (EventLoop.initial α) events))
            = pendingOf y.slot (runLoop (EventLoop.initial α) events))
      ∧ (∀ (events : List (LoopEvent α)) (t : Timer α) (y : Debounced), t.owner ≠ y.slot →
          pendingOf y.slot (later t (runLoop (EventLoop.initial α) events))
            = pendingOf y.slot (runLoop (EventLoop.initial α) events))
      ∧ (∀ (w : EventLoop α) (wait1 wait2 : Nat) (events : List (LoopEvent α)),
          (debounce wait1 w).1.slot
            ≠ (debounce wait2 (runLoop (debounce wait1 w).2 events)).1.slot) := by
  obtain ⟨⟨id, ht, hto⟩, hnow, hinv⟩ := callSeries_from_idle d front g a w0 hidle hgaps
  refine ⟨hinv, ?_, ?_, ?_, ?_, ?_, ?_⟩
  · intro early hearly
    rw [advance_early early _ _ ht (by simp; omega)]
    exact hinv
  · rw [advance_fire dt _ _ ht hto (by simp; omega)]
    simp [hinv, hnow]
  · rw [advance_fire dt _ _ ht hto (by simp; omega)]
  · intro events x y args hxy
    exact pendingOf_executedFunction _ (wf_runLoop events _ (wf_initial α)) x args y.slot
      (Ne.symm hxy)
  · intro events t y hty
    exact pendingOf_later _ (wf_runLoop events _ (wf_initial α)) t y.slot (Ne.symm hty)
  · intro w wait1 wait2 events
    have h := nextSlot_le_runLoop events (debounce wait1 w).2
    simp only [debounce] at h ⊢
    omega

/-- C8 for three keystrokes 100 ms and 200 ms apart on a function debounced by
500 ms: one call, with the last text, 500 ms after the last keystroke. -/
theorem debounce_fires_once_witness :
    (advance 500 (callSeries (debounce 500 (EventLoop.initial String)).1
        ([(0, "a"), (100, "ab")] ++ [(200, "abc")])
        (debounce 500 (EventLoop.initial String)).2)).invoked
      = [⟨0, "abc", 800⟩] :=
  (debounce_fires_once (debounce 500 (EventLoop.initial String)).1
    (debounce 500 (EventLoop.initial String)).2 [(0, "a"), (100, "ab")] 200 "abc" 500
    rfl (by decide) (by decide)).2.2.1

/-! ## Properties of generateStars -/

theorem remainderOne_of_nonneg (r : Rat) (h0 : 0 ≤ r) : remainderOne r = Int.fract r := by
  unfold remainderOne Int.fract
  rw [if_pos h0]

theorem hasHalfStar_iff (r : Rat) (h0 : 0 ≤ r) :
    hasHalfStar r = true ↔ (1 : Rat) / 2 ≤ Int.fract r := by
  simp [hasHalfStar, remainderOne_of_nonneg r h0]

theorem floor_le_maxStars (maxStars : Nat) (r : Rat) (h1 : r ≤ maxStars) :
    Int.floor r ≤ (maxStars : Int) := by
  have h : Int.floor r ≤ Int.floor ((maxStars : Int) : Rat) :=
    Int.floor_mono (by simpa using h1)
  rwa [Int.floor_intCast] at h

theorem floor_lt_maxStars_of_half (maxStars : Nat) (r : Rat) (h1 : r ≤ maxStars)
    (hh : (1 : Rat) / 2 ≤ Int.fract r) : Int.floor r < (maxStars : Int) := by
  have hpos : (0 : Rat) < Int.fract r := lt_of_lt_of_le (by norm_num) hh
  have hsum : (Int.floor r : Rat) + Int.fract r = r := Int.floor_add_fract r
  have hlt : ((Int.floor r : Int) : Rat) < ((maxStars : Int) : Rat) := by
    have : ((maxStars : Int) : Rat) = (maxStars : Rat) := by simp
    rw [this]
    linarith
  exact Int.cast_lt.1 hlt

/-! ### C11 -/

/-- C11: for every natural number `maxStars` and every rational rating `r`
with `0 <= r <= maxStars`, the string `generateStars(r, maxStars)` returns is
the markup of `floor(r)` full stars, then of one half star exactly when the
fractional part of `r` is at least 1/2, then of
`maxStars - floor(r) - (1 if half else 0)` empty stars, joined in that order;
that last count is not negative, and the icons are `maxStars` in all. -/
theorem generateStars_total (maxStars : Nat) (r : Rat) (h0 : 0 ≤ r) (h1 : r ≤ maxStars) :
    (∃ pieces : List String,
        generateStars r maxStars = String.join pieces
          ∧ pieces
              = List.replicate (Int.floor r).toNat
                  "<i class=\"bi bi-star-fill text-warning\"></i>"
                ++ (if (1 : Rat) / 2 ≤ Int.fract r
                    then ["<i class=\"bi bi-star-half text-warning\"></i>"] else [])
                ++ List.replicate
                    ((maxStars : Int) - Int.floor r
                      - (if (1 : Rat) / 2 ≤ Int.fract r then 1 else 0)).toNat
                    "<i class=\"bi bi-star text-muted\"></i>"
          ∧ pieces.length = maxStars)
      ∧ starIcons r maxStars
        = List.replicate (Int.floor r).toNat StarIcon.full
          ++ (if (1 : Rat) / 2 ≤ Int.fract r then [StarIcon.half] else [])
          ++ List.replicate
              ((maxStars : Int) - Int.floor r
                - (if (1 : Rat) / 2 ≤ Int.fract r then 1 else 0)).toNat StarIcon.empty
      ∧ generateStars r maxStars = String.join ((starIcons r maxStars).map StarIcon.html)
      ∧ (0 : Int) ≤ Int.floor r
      ∧ (0 : Int) ≤ (maxStars : Int) - Int.floor r
                - (if (1 : Rat) / 2 ≤ Int.fract r then 1 else 0)
      ∧ (starIcons r maxStars).length = maxStars
      ∧ (starIcons r maxStars).count StarIcon.full = (Int.floor r).toNat
      ∧ (starIcons r maxStars).count StarIcon.half
          = (if (1 : Rat) / 2 ≤ Int.fract r then 1 else 0)
      ∧ ((starIcons r maxStars).count StarIcon.empty : Int)
          = (maxStars : Int) - Int.floor r
              - (if (1 : Rat) / 2 ≤ Int.fract r then 1 else 0) := by
  have hfloor : (0 : Int) ≤ Int.floor r := Int.floor_nonneg.2 h0
  have hle := floor_le_maxStars maxStars r h1
  by_cases hh : (1 : Rat) / 2 ≤ Int.fract r
  · have hhalf : hasHalfStar r = true := (hasHalfStar_iff r h0).2 hh
    have hlt := floor_lt_maxStars_of_half maxStars r h1 hh
    have hicons : starIcons r maxStars
        = List.replicate (Int.floor r).toNat StarIcon.full ++ [StarIcon.half]
          ++ List.replicate ((maxStars : Int) - Int.floor r - 1).toNat StarIcon.empty := by
      simp [starIcons, emptyStars, fullStars, hhalf]
    simp only [if_pos hh]
    refine ⟨⟨_, ?_, rfl, ?_⟩, hicons, rfl, hfloor, by omega, ?_, ?_, ?_, ?_⟩
    · unfold generateStars
      rw [hicons]
      simp only [List.map_append, List.map_replicate, List.map_cons, List.map_nil,
        StarIcon.html]
    · simp only [List.length_append, List.length_replicate, List.length_singleton]
      omega
    · rw [hicons]
      simp only [List.length_append, List.length_replicate, List.length_singleton]
      omega
    · rw [hicons]
      simp [List.count_append, List.count_replicate]
    · rw [hicons]
      simp [List.count_append, List.count_replicate]
    · rw [hicons]
      simp only [List.count_append, List.count_replicate]
      simp
      omega
  · have hhalf : hasHalfStar r = false := by
      cases hb : hasHalfStar r with
      | false => rfl
      | true => exact absurd ((hasHalfStar_iff r h0).1 hb) hh
    have hicons : starIcons r maxStars
        = List.replicate (Int.floor r).toNat StarIcon.full ++ []
          ++ List.replicate ((maxStars : Int) - Int.floor r - 0).toNat StarIcon.empty := by
      simp [starIcons, emptyStars, fullStars, hhalf]
    simp only [if_neg hh]
    refine ⟨⟨_, ?_, rfl, ?_⟩, hicons, rfl, hfloor, by omega, ?_, ?_, ?_, ?_⟩
    · unfold generateStars
      rw [hicons]
      simp only [List.map_append, List.map_replicate, List.map_nil, StarIcon.html]
    · simp only [List.length_append, List.length_replicate, List.length_nil]
      omega
    · rw [hicons]
      simp only [List.length_append, List.length_replicate, List.length_nil]
      omega
    · rw [hicons]
      simp [List.count_append, List.count_replicate]
    · rw [hicons]
      simp [List.count_append, List.count_replicate]
    · rw [hicons]
      simp only [List.count_append, List.count_replicate]
      simp
      omega

/-- C11 for the rating 7/2 out of 5 stars: three full stars, one half star,
one empty star. -/
theorem generateStars_total_witness :
    generateStars (7 / 2) ((5 : Nat) : Int)
      = String.join
          ["<i class=\"bi bi-star-fill text-warning\"></i>",
            "<i class=\"bi bi-star-fill text-warning\"></i>",
            "<i class=\"bi bi-star-fill text-warning\"></i>",
            "<i class=\"bi bi-star-half text-warning\"></i>",
            "<i class=\"bi bi-star text-muted\"></i>"] := by
  obtain ⟨⟨pieces, hjoin, hpieces, _⟩, _⟩ :=
    generateStars_total 5 (7 / 2) (by norm_num) (by norm_num)
  have hf : Int.floor ((7 : Rat) / 2) = 3 := by
    rw [Int.floor_eq_iff]
    norm_num
  have hfr : Int.fract ((7 : Rat) / 2) = 1 / 2 := by
    rw [Int.fract, hf]
    norm_num
  rw [hjoin, hpieces, hf, hfr, if_pos (le_refl _), if_pos (le_refl _)]
  rfl

end SpringCA
